import Mathlib

/-!
Verification of the t1net wire protocol client (Go package `t1net`).

The development shallowly embeds the wire codec (`utils.go`), the game-server
query decoder (`game.go`) and the master-server multi-packet query loop
(`master.go`).  Byte buffers are `List Nat` (each entry one octet), the
`bytes.Reader` cursor is the remaining suffix of the buffer, and the
entity structs are Lean structures.  Go methods that mutate the receiver
field by field are embedded as state-passing functions that perform the
same assignments in the same order, so that the entity value returned on
an error path is exactly the partially-updated state the Go code leaves
behind.
-/

set_option maxRecDepth 8192

namespace T1Net

/-- Error kinds produced by the query and codec operations, one constructor
per distinct `error` value returned in the Go source. -/
inductive QError where
  | truncated
  | protocolMismatch
  | keyMismatch
  | trailingData
  | invalidPacketNumber
  | invalidPacketTotal
  | packetOrderError
  | replyTooShort
  | stringTooLong
  | invalidAddressTag
  | ipLengthError
  | timeout
deriving Repr, DecidableEq

/-- `reader.ReadByte()`: consume one byte, EOF when the buffer is empty. -/
def readByte : List Nat → Except QError (Nat × List Nat)
  | [] => .error .truncated
  | b :: rest => .ok (b, rest)

/-- `binary.Read(reader, binary.BigEndian, &x)` for a `uint16`. -/
def readU16BE : List Nat → Except QError (Nat × List Nat)
  | b0 :: b1 :: rest => .ok (b0 * 256 + b1, rest)
  | _ => .error .truncated

/-- `binary.Read(reader, binary.LittleEndian, &x)` for a `uint16`. -/
def readU16LE : List Nat → Except QError (Nat × List Nat)
  | b0 :: b1 :: rest => .ok (b0 + 256 * b1, rest)
  | _ => .error .truncated

/-- `ReadPascalString` (utils.go): one length byte `b`; if `b > 0`, exactly
`b` further bytes are copied out (`io.CopyN` fails when fewer remain). -/
def ReadPascalString (input : List Nat) : Except QError (List Nat × List Nat) :=
  match input with
  | [] => .error .truncated
  | b :: rest =>
    if b > 0 then
      if rest.length < b then .error .truncated
      else .ok (rest.take b, rest.drop b)
    else .ok ([], rest)

/-- `WritePascalString` (utils.go): refuse strings longer than 255 bytes,
otherwise append the length byte followed by the raw bytes.  Writes into a
`bytes.Buffer` cannot fail, and the written-length recheck in the source
always passes, so the only error is the length guard. -/
def WritePascalString (buffer : List Nat) (str : List Nat) : Except QError (List Nat) :=
  if str.length > 255 then .error .stringTooLong
  else .ok (buffer ++ str.length :: str)

/-- `ReadAddressPort` (utils.go): one tag byte that must equal 6, then four
IP bytes in buffer order (big-endian/network order) and a little-endian
`uint16` port. -/
def ReadAddressPort (input : List Nat) : Except QError ((List Nat × Nat) × List Nat) :=
  match input with
  | [] => .error .truncated
  | b :: rest =>
    if b ≠ 6 then .error .invalidAddressTag
    else
      match rest with
      | a0 :: a1 :: a2 :: a3 :: p0 :: p1 :: r =>
        .ok (([a0, a1, a2, a3], p0 + 256 * p1), r)
      | _ => .error .truncated

/-- `WriteAddressPort` (utils.go): the tag byte 6 is written into the buffer
before the IPv4 length guard runs, so the error path returns with the
buffer already extended by that byte.  The result pairs the final buffer
contents with the returned error. -/
def WriteAddressPort (buffer : List Nat) (ip : List Nat) (port : Nat) :
    List Nat × Option QError :=
  let buffer := buffer ++ [6]
  if ip.length ≠ 4 then (buffer, some .ipLengthError)
  else (buffer ++ ip ++ [port % 256, port / 256 % 256], none)

/-- `fmt.Sprintf("%s:%d", ip.String(), port)` for a 4-byte `net.IP`:
dotted-decimal address, a colon, then the decimal port. -/
def addrString (ip : List Nat) (port : Nat) : String :=
  String.intercalate "." (ip.map Nat.repr) ++ ":" ++ Nat.repr port

/-- C3: for every string of byte length at most 255 the Pascal-string codec
round-trips (`ReadPascalString` of the `WritePascalString` output returns the
original string and consumes the whole encoding), and for every longer
string `WritePascalString` fails with the string-too-long error. -/
theorem pascalString_roundtrip (str buffer : List Nat) :
    (str.length ≤ 255 →
      WritePascalString [] str = .ok (str.length :: str) ∧
      ReadPascalString (str.length :: str) = .ok (str, [])) ∧
    (255 < str.length → WritePascalString buffer str = .error .stringTooLong) := by
  constructor
  · intro h
    constructor
    · simp [WritePascalString, Nat.not_lt.mpr h]
    · cases str with
      | nil => simp [ReadPascalString]
      | cons a l =>
        simp [ReadPascalString]
  · intro h
    simp [WritePascalString, h]

theorem pascalString_roundtrip_witness :
    (WritePascalString [] [7, 8] = .ok [2, 7, 8] ∧
      ReadPascalString [2, 7, 8] = .ok ([7, 8], [])) ∧
    WritePascalString [] (List.replicate 256 0) = .error .stringTooLong :=
  ⟨(pascalString_roundtrip [7, 8] []).1 (by decide),
    (pascalString_roundtrip (List.replicate 256 0) []).2 (by simp)⟩

/-- C4: for every 4-byte IPv4 address and 16-bit port, reading back the
`WriteAddressPort` output with `ReadAddressPort` returns the same address
and port and consumes the whole buffer; and `ReadAddressPort` fails with
the invalid-address-tag error on every buffer whose first byte is not 6. -/
theorem addressPort_roundtrip (ip : List Nat) (port : Nat) (b : Nat) (rest : List Nat) :
    (ip.length = 4 → port < 65536 →
      ∃ out, WriteAddressPort [] ip port = (out, none) ∧
        ReadAddressPort out = .ok ((ip, port), [])) ∧
    (b ≠ 6 → ReadAddressPort (b :: rest) = .error .invalidAddressTag) := by
  constructor
  · intro h4 hport
    refine ⟨[6] ++ ip ++ [port % 256, port / 256 % 256], ?_, ?_⟩
    · simp [WriteAddressPort, h4]
    · rcases ip with _ | ⟨a0, _ | ⟨a1, _ | ⟨a2, _ | ⟨a3, tail⟩⟩⟩⟩ <;> simp_all
      cases tail with
      | cons x xs => simp at h4
      | nil =>
        simp [ReadAddressPort]
        omega
  · intro hb
    simp [ReadAddressPort, hb]

theorem addressPort_roundtrip_witness :
    (∃ out, WriteAddressPort [] [12, 13, 14, 15] 28001 = (out, none) ∧
      ReadAddressPort out = .ok (([12, 13, 14, 15], 28001), [])) ∧
    ReadAddressPort (7 :: [0, 0, 0, 0, 0, 0]) = .error .invalidAddressTag :=
  ⟨(addressPort_roundtrip [12, 13, 14, 15] 28001 7 [0, 0, 0, 0, 0, 0]).1
      (by decide) (by decide),
    (addressPort_roundtrip [12, 13, 14, 15] 28001 7 [0, 0, 0, 0, 0, 0]).2 (by decide)⟩

/-- C5: `ReadAddressPort` decodes `[6, a, b, c, d, p0, p1]` as the address
bytes `[a, b, c, d]` in buffer (big-endian/network) order together with the
little-endian port `p0 + 256 * p1`, and `WriteAddressPort` emits exactly
this layout: the tag 6, the four address bytes in order, then the low port
byte before the high port byte. -/
theorem addressPort_endianness (a b c d p0 p1 : Nat) (r : List Nat)
    (i0 i1 i2 i3 port : Nat) (buffer : List Nat) :
    ReadAddressPort (6 :: a :: b :: c :: d :: p0 :: p1 :: r) =
      .ok (([a, b, c, d], p0 + 256 * p1), r) ∧
    WriteAddressPort buffer [i0, i1, i2, i3] port =
      (buffer ++ [6] ++ [i0, i1, i2, i3] ++ [port % 256, port / 256 % 256], none) := by
  constructor
  · simp [ReadAddressPort]
  · simp [WriteAddressPort]

/-- C10: `WriteAddressPort` appends the tag byte 6 before validating the
supplied IP, so for every IP whose length is not 4 the call fails with the
IPv4-length error and the buffer has already been extended by that byte. -/
theorem writeAddressPort_nonatomic (buffer ip : List Nat) (port : Nat)
    (h : ip.length ≠ 4) :
    WriteAddressPort buffer ip port = (buffer ++ [6], some .ipLengthError) := by
  simp [WriteAddressPort, h]

theorem writeAddressPort_nonatomic_witness :
    WriteAddressPort [9] [1, 2, 3] 5 = ([9, 6], some .ipLengthError) :=
  writeAddressPort_nonatomic [9] [1, 2, 3] 5 (by decide)

/-- `Team` (game.go). -/
structure Team where
  name : List Nat
  score : List Nat
deriving Repr, DecidableEq

/-- `Player` (game.go). -/
structure Player where
  name : List Nat
  team : Nat
  score : List Nat
  ping : Nat
  pl : Nat
deriving Repr, DecidableEq

/-- The decoded-state fields of `GameServer` (game.go).  The connection
target, latency and timestamp fields are not part of the reply decode and
are omitted. -/
structure GameServer where
  game : List Nat
  version : List Nat
  name : List Nat
  dedicated : Bool
  password : Bool
  numPlayers : Nat
  maxPlayers : Nat
  cpuSpeed : Nat
  mod : List Nat
  serverType : List Nat
  mission : List Nat
  info : List Nat
  numTeams : Nat
  teamScoreHeader : List Nat
  playerScoreHeader : List Nat
  teams : List Team
  players : List Player
deriving Repr, DecidableEq

/-- `NewGameServer` (game.go): a freshly constructed entity has every
decoded-state field at its Go zero value. -/
def NewGameServer : GameServer :=
  { game := [], version := [], name := [], dedicated := false, password := false
    numPlayers := 0, maxPlayers := 0, cpuSpeed := 0, mod := [], serverType := []
    mission := [], info := [], numTeams := 0, teamScoreHeader := []
    playerScoreHeader := [], teams := [], players := [] }

/-- The field resets `GameServer.Query` performs after taking the lock and
before any network traffic (game.go lines 210-214): only the counts and the
two lists are cleared. -/
def queryReset (g : GameServer) : GameServer :=
  { g with numTeams := 0, numPlayers := 0, maxPlayers := 0, teams := [], players := [] }

/-- The team-record loop of `GameServer.Query`: each iteration reads a
Pascal-string name and score and appends one `Team` to the accumulator,
which starts from the entity's current list.  On a read failure the teams
appended so far are kept, as in the Go code. -/
def readTeams : Nat → List Team → List Nat → List Team × List Nat × Option QError
  | 0, acc, input => (acc, input, none)
  | n + 1, acc, input =>
    match ReadPascalString input with
    | .error e => (acc, input, some e)
    | .ok (nm, r1) =>
      match ReadPascalString r1 with
      | .error e => (acc, r1, some e)
      | .ok (sc, r2) => readTeams n (acc ++ [{ name := nm, score := sc }]) r2

/-- The player-record loop of `GameServer.Query`: ping byte, packet-loss
byte, team byte, Pascal-string name and score per player. -/
def readPlayers : Nat → List Player → List Nat → List Player × List Nat × Option QError
  | 0, acc, input => (acc, input, none)
  | n + 1, acc, input =>
    match readByte input with
    | .error e => (acc, input, some e)
    | .ok (pingB, r1) =>
      match readByte r1 with
      | .error e => (acc, r1, some e)
      | .ok (plB, r2) =>
        match readByte r2 with
        | .error e => (acc, r2, some e)
        | .ok (teamB, r3) =>
          match ReadPascalString r3 with
          | .error e => (acc, r3, some e)
          | .ok (nm, r4) =>
            match ReadPascalString r4 with
            | .error e => (acc, r4, some e)
            | .ok (sc, r5) =>
              readPlayers n
                (acc ++ [{ name := nm, team := teamB, score := sc, ping := pingB, pl := plB }]) r5

/-- The body of the `GameServer.Query` reply decode after the opcode and
correlation key have been validated: the request-opcode echo byte and all
payload fields, assigned to the entity one by one in source order.  Returns
the entity state reached, the unconsumed bytes, and the first error. -/
def GameServer.decodeBody (g : GameServer) (input : List Nat) :
    GameServer × List Nat × Option QError :=
  match readByte input with
  | .error e => (g, input, some e)
  | .ok (b3, r) =>
  if b3 ≠ 0x62 then (g, r, some .protocolMismatch) else
  match ReadPascalString r with
  | .error e => (g, r, some e)
  | .ok (gameS, r) =>
  let g := { g with game := gameS }
  match ReadPascalString r with
  | .error e => (g, r, some e)
  | .ok (versionS, r) =>
  let g := { g with version := versionS }
  match ReadPascalString r with
  | .error e => (g, r, some e)
  | .ok (nameS, r) =>
  let g := { g with name := nameS }
  match readByte r with
  | .error e => (g, r, some e)
  | .ok (dedB, r) =>
  let g := { g with dedicated := dedB == 1 }
  match readByte r with
  | .error e => (g, r, some e)
  | .ok (pwB, r) =>
  let g := { g with password := pwB == 1 }
  match readByte r with
  | .error e => (g, r, some e)
  | .ok (npB, r) =>
  let g := { g with numPlayers := npB }
  match readByte r with
  | .error e => (g, r, some e)
  | .ok (mpB, r) =>
  let g := { g with maxPlayers := mpB }
  match readU16LE r with
  | .error e => (g, r, some e)
  | .ok (cpu, r) =>
  let g := { g with cpuSpeed := cpu }
  match ReadPascalString r with
  | .error e => (g, r, some e)
  | .ok (modS, r) =>
  let g := { g with mod := modS }
  match ReadPascalString r with
  | .error e => (g, r, some e)
  | .ok (stS, r) =>
  let g := { g with serverType := stS }
  match ReadPascalString r with
  | .error e => (g, r, some e)
  | .ok (misS, r) =>
  let g := { g with mission := misS }
  match ReadPascalString r with
  | .error e => (g, r, some e)
  | .ok (infoS, r) =>
  let g := { g with info := infoS }
  match readByte r with
  | .error e => (g, r, some e)
  | .ok (ntB, r) =>
  let g := { g with numTeams := ntB }
  match ReadPascalString r with
  | .error e => (g, r, some e)
  | .ok (tshS, r) =>
  let g := { g with teamScoreHeader := tshS }
  match ReadPascalString r with
  | .error e => (g, r, some e)
  | .ok (pshS, r) =>
  let g := { g with playerScoreHeader := pshS }
  match readTeams g.numTeams g.teams r with
  | (ts, r, some e) => ({ g with teams := ts }, r, some e)
  | (ts, r, none) =>
  let g := { g with teams := ts }
  match readPlayers g.numPlayers g.players r with
  | (ps, r, some e) => ({ g with players := ps }, r, some e)
  | (ps, r, none) => ({ g with players := ps }, r, none)

/-- The full reply decode of `GameServer.Query`: reply opcode `0x63`, the
echoed big-endian correlation key compared against the sent key, then
`GameServer.decodeBody`. -/
def GameServer.decodeFields (g : GameServer) (key : Nat) (buf : List Nat) :
    GameServer × List Nat × Option QError :=
  match readByte buf with
  | .error e => (g, buf, some e)
  | .ok (b0, r) =>
  if b0 ≠ 0x63 then (g, r, some .protocolMismatch) else
  match readU16BE r with
  | .error e => (g, r, some e)
  | .ok (readKey, r) =>
  if key ≠ readKey then (g, r, some .keyMismatch) else
  GameServer.decodeBody g r

/-- `GameServer.Query` from the point where the entity state is touched:
reset the counts and lists, receive the reply datagram into a 2048-byte
buffer, reject replies shorter than 20 bytes, decode, and reject leftover
bytes.  `key` is the random correlation key sent in the request and
`datagram` the reply payload. -/
def GameServer.Query (g0 : GameServer) (key : Nat) (datagram : List Nat) :
    GameServer × Option QError :=
  let g := queryReset g0
  let buf := datagram.take 2048
  if buf.length < 20 then (g, some .replyTooShort)
  else
    match GameServer.decodeFields g key buf with
    | (g1, _, some e) => (g1, some e)
    | (g1, rem, none) =>
      if rem.length ≠ 0 then (g1, some .trailingData) else (g1, none)

/-- The decoded-state fields of `MasterServer` (master.go), together with
the loop bound `totalPackets`.  Target address, latency and timestamp are
not part of the packet decode and are omitted. -/
structure MasterServer where
  name : List Nat
  motd : List Nat
  serverCount : Nat
  servers : List String
  totalPackets : Nat
deriving Repr, DecidableEq

/-- `NewMasterServer` (master.go): all fields at their Go zero value. -/
def NewMasterServer : MasterServer :=
  { name := [], motd := [], serverCount := 0, servers := [], totalPackets := 0 }

/-- The field resets `MasterServer.Query` performs before the exchange,
including `m.totalPackets = 1` set just before the receive loop. -/
def masterReset (m : MasterServer) : MasterServer :=
  { m with serverCount := 0, servers := [], totalPackets := 1 }

/-- The address-list loop of `MasterServer.Query`: `serverCount` repetitions
of `ReadAddressPort`, each appended to the accumulator as an `"ip:port"`
string.  Entries appended before a failure are kept, as in the Go code. -/
def readServers : Nat → List String → List Nat → List String × List Nat × Option QError
  | 0, acc, input => (acc, input, none)
  | n + 1, acc, input =>
    match ReadAddressPort input with
    | .error e => (acc, input, some e)
    | .ok ((ip, port), rest) => readServers n (acc ++ [addrString ip port]) rest

/-- The body of a master-server packet after the header and correlation key
have been validated and `m.totalPackets` has been re-assigned: the zero
marker byte, the `0x66` marker, the directory name, the MOTD, the per-packet
big-endian server count (added to the `uint16` running total modulo 2^16)
and the address list. -/
def MasterServer.packetBody (m : MasterServer) (input : List Nat) :
    MasterServer × List Nat × Option QError :=
  match readByte input with
  | .error e => (m, input, some e)
  | .ok (z, r) =>
  if z ≠ 0 then (m, r, some .protocolMismatch) else
  match readByte r with
  | .error e => (m, r, some e)
  | .ok (marker, r) =>
  if marker ≠ 0x66 then (m, r, some .protocolMismatch) else
  match ReadPascalString r with
  | .error e => (m, r, some e)
  | .ok (nm, r) =>
  let m := { m with name := nm }
  match ReadPascalString r with
  | .error e => (m, r, some e)
  | .ok (mo, r) =>
  let m := { m with motd := mo }
  match readU16BE r with
  | .error e => (m, r, some e)
  | .ok (cnt, r) =>
  let m := { m with serverCount := (m.serverCount + cnt) % 65536 }
  match readServers cnt m.servers r with
  | (svs, r2, some e) => ({ m with servers := svs }, r2, some e)
  | (svs, r2, none) => ({ m with servers := svs }, r2, none)

/-- One master-server reply packet without the trailing-bytes check:
version byte `0x10`, reply type `0x06`, packet number and packet total in
`[1,5]` with number ≤ total, big-endian correlation key compared against
the sent key, then `m.totalPackets` is re-assigned from the packet-total
field and the body is decoded. -/
def MasterServer.packetFields (m : MasterServer) (key : Nat) (buf : List Nat) :
    MasterServer × List Nat × Option QError :=
  match readByte buf with
  | .error e => (m, buf, some e)
  | .ok (b0, r) =>
  if b0 ≠ 0x10 then (m, r, some .protocolMismatch) else
  match readByte r with
  | .error e => (m, r, some e)
  | .ok (b1, r) =>
  if b1 ≠ 0x06 then (m, r, some .protocolMismatch) else
  match readByte r with
  | .error e => (m, r, some e)
  | .ok (packetNumber, r) =>
  if packetNumber < 1 ∨ packetNumber > 5 then (m, r, some .invalidPacketNumber) else
  match readByte r with
  | .error e => (m, r, some e)
  | .ok (packetTotal, r) =>
  if packetTotal < 1 ∨ packetTotal > 5 then (m, r, some .invalidPacketTotal) else
  if packetNumber > packetTotal then (m, r, some .packetOrderError) else
  match readU16BE r with
  | .error e => (m, r, some e)
  | .ok (recvKey, r) =>
  if key ≠ recvKey then (m, r, some .keyMismatch) else
  MasterServer.packetBody { m with totalPackets := packetTotal } r

/-- One iteration of the receive loop on a single packet: decode the fields
and then reject leftover bytes, as in the per-packet trailing check of
`MasterServer.Query`. -/
def MasterServer.processPacket (m : MasterServer) (key : Nat) (buf : List Nat) :
    MasterServer × Option QError :=
  match MasterServer.packetFields m key buf with
  | (m1, _, some e) => (m1, some e)
  | (m1, rem, none) => if rem.length ≠ 0 then (m1, some .trailingData) else (m1, none)

/-- The receive loop of `MasterServer.Query`: `for p := 0; p < m.totalPackets;
p++`, one datagram per iteration read into a 1024-byte buffer.  `packets`
models the sequence of datagrams the network delivers; running out of
datagrams while more packets are expected is the read timeout.  Returns the
final state, the undelivered datagrams and the first error. -/
def MasterServer.queryLoop (key : Nat) :
    List (List Nat) → MasterServer → Nat → MasterServer × List (List Nat) × Option QError
  | [], m, p =>
    if p < m.totalPackets then (m, [], some .timeout) else (m, [], none)
  | d :: rest, m, p =>
    if p < m.totalPackets then
      match MasterServer.processPacket m key (d.take 1024) with
      | (m1, none) => MasterServer.queryLoop key rest m1 (p + 1)
      | (m1, some e) => (m1, rest, some e)
    else (m, d :: rest, none)

/-- `MasterServer.Query` from the point where the entity state is touched:
reset `serverCount` and `servers`, set `totalPackets` to 1, and run the
receive loop over the delivered datagrams with the sent correlation key. -/
def MasterServer.Query (m0 : MasterServer) (key : Nat) (packets : List (List Nat)) :
    MasterServer × List (List Nat) × Option QError :=
  MasterServer.queryLoop key packets (masterReset m0) 0

/-- The server strings contributed by a single reply packet: the servers
decoded from it starting from a fresh entity. -/
def packetServers (key : Nat) (d : List Nat) : List String :=
  (MasterServer.processPacket NewMasterServer key (d.take 1024)).1.servers

/-- The per-packet server-count field as accumulated from a single reply
packet starting from a fresh entity. -/
def packetCount (key : Nat) (d : List Nat) : Nat :=
  (MasterServer.processPacket NewMasterServer key (d.take 1024)).1.serverCount

/-! ### Error classification and consumption lemmas for the read primitives -/

lemma readByte_error {i : List Nat} {e : QError} (h : readByte i = .error e) :
    e = .truncated := by
  cases i <;> simp_all [readByte]

lemma readU16BE_error {i : List Nat} {e : QError} (h : readU16BE i = .error e) :
    e = .truncated := by
  rcases i with _ | ⟨b0, _ | ⟨b1, r⟩⟩ <;> simp_all [readU16BE]

lemma readU16LE_error {i : List Nat} {e : QError} (h : readU16LE i = .error e) :
    e = .truncated := by
  rcases i with _ | ⟨b0, _ | ⟨b1, r⟩⟩ <;> simp_all [readU16LE]

lemma triple_inj {α β γ : Type} {a a' : α} {b b' : β} {c c' : γ}
    (h : (a, b, c) = (a', b', c')) : a = a' ∧ b = b' ∧ c = c' := by
  injection h with h1 h23
  injection h23 with h2 h3
  exact ⟨h1, h2, h3⟩

lemma readPascal_error {i : List Nat} {e : QError} (h : ReadPascalString i = .error e) :
    e = .truncated := by
  rcases i with _ | ⟨b, rest⟩
  · simp [ReadPascalString] at h
    simp_all
  · simp only [ReadPascalString] at h
    split at h
    · split at h
      · exact (Except.error.inj h).symm
      · simp at h
    · simp at h

lemma readAddressPort_error {i : List Nat} {e : QError} (h : ReadAddressPort i = .error e) :
    e = .truncated ∨ e = .invalidAddressTag := by
  rcases i with _ | ⟨b, rest⟩
  · simp [ReadAddressPort] at h
    simp_all
  · by_cases hb : b = 6
    · subst hb
      rcases rest with _ | ⟨a0, _ | ⟨a1, _ | ⟨a2, _ | ⟨a3, _ | ⟨p0, _ | ⟨p1, rr⟩⟩⟩⟩⟩⟩ <;>
        simp [ReadAddressPort] at h <;> simp_all
    · simp [ReadAddressPort, hb] at h
      simp_all

lemma readAddressPort_ok {i r : List Nat} {x : List Nat × Nat}
    (h : ReadAddressPort i = .ok (x, r)) : i.length = 7 + r.length := by
  rcases i with _ | ⟨b, rest⟩
  · simp [ReadAddressPort] at h
  · by_cases hb : b = 6
    · subst hb
      rcases rest with _ | ⟨a0, _ | ⟨a1, _ | ⟨a2, _ | ⟨a3, _ | ⟨p0, _ | ⟨p1, rr⟩⟩⟩⟩⟩⟩ <;>
        simp [ReadAddressPort] at h
      obtain ⟨-, rfl⟩ := h
      simp
      omega
    · simp [ReadAddressPort, hb] at h

lemma readServers_error : ∀ {n : Nat} {acc : List String} {i : List Nat}
    {svs : List String} {rem : List Nat} {e : QError},
    readServers n acc i = (svs, rem, some e) → e = .truncated ∨ e = .invalidAddressTag := by
  intro n
  induction n with
  | zero => intro acc i svs rem e h; simp [readServers] at h
  | succ k ih =>
    intro acc i svs rem e h
    rw [readServers] at h
    cases hr : ReadAddressPort i with
    | error e2 =>
      simp only [hr] at h
      obtain ⟨-, -, h3⟩ := triple_inj h
      obtain rfl := Option.some.inj h3
      exact readAddressPort_error hr
    | ok v =>
      obtain ⟨⟨ip, port⟩, rest⟩ := v
      simp only [hr] at h
      exact ih h

lemma readServers_ok : ∀ {n : Nat} {acc : List String} {i : List Nat}
    {svs : List String} {rem : List Nat},
    readServers n acc i = (svs, rem, none) →
    svs.length = acc.length + n ∧ i.length = 7 * n + rem.length := by
  intro n
  induction n with
  | zero =>
    intro acc i svs rem h
    rw [readServers] at h
    obtain ⟨h1, h2, -⟩ := triple_inj h
    subst h1; subst h2
    simp
  | succ k ih =>
    intro acc i svs rem h
    rw [readServers] at h
    cases hr : ReadAddressPort i with
    | error e2 =>
      simp only [hr] at h
      obtain ⟨-, -, h3⟩ := triple_inj h
      simp at h3
    | ok v =>
      obtain ⟨⟨ip, port⟩, rest⟩ := v
      simp only [hr] at h
      obtain ⟨h1, h2⟩ := ih h
      have hc := readAddressPort_ok hr
      simp at h1
      constructor
      · omega
      · omega

lemma readServers_acc : ∀ (n : Nat) (acc : List String) (i : List Nat),
    readServers n acc i =
      (acc ++ (readServers n [] i).1, (readServers n [] i).2.1, (readServers n [] i).2.2) := by
  intro n
  induction n with
  | zero => intro acc i; simp [readServers]
  | succ k ih =>
    intro acc i
    rw [readServers, readServers]
    cases hr : ReadAddressPort i with
    | error e2 => simp only [hr]; simp
    | ok v =>
      obtain ⟨⟨ip, port⟩, rest⟩ := v
      simp only [hr, List.nil_append]
      rw [ih (acc ++ [addrString ip port]) rest, ih [addrString ip port] rest]
      simp

lemma readTeams_error : ∀ {n : Nat} {acc : List Team} {i : List Nat}
    {ts : List Team} {rem : List Nat} {e : QError},
    readTeams n acc i = (ts, rem, some e) → e = .truncated := by
  intro n
  induction n with
  | zero => intro acc i ts rem e h; simp [readTeams] at h
  | succ k ih =>
    intro acc i ts rem e h
    rw [readTeams] at h
    cases h1 : ReadPascalString i with
    | error e2 =>
      simp only [h1] at h
      obtain ⟨-, -, h3⟩ := triple_inj h
      obtain rfl := Option.some.inj h3
      exact readPascal_error h1
    | ok v =>
      obtain ⟨nm, r1⟩ := v
      simp only [h1] at h
      cases h2 : ReadPascalString r1 with
      | error e2 =>
        simp only [h2] at h
        obtain ⟨-, -, h3⟩ := triple_inj h
        obtain rfl := Option.some.inj h3
        exact readPascal_error h2
      | ok v2 =>
        obtain ⟨sc, r2⟩ := v2
        simp only [h2] at h
        exact ih h

lemma readTeams_ok : ∀ {n : Nat} {acc : List Team} {i : List Nat}
    {ts : List Team} {rem : List Nat},
    readTeams n acc i = (ts, rem, none) → ts.length = acc.length + n := by
  intro n
  induction n with
  | zero =>
    intro acc i ts rem h
    rw [readTeams] at h
    obtain ⟨h1, -, -⟩ := triple_inj h
    subst h1
    simp
  | succ k ih =>
    intro acc i ts rem h
    rw [readTeams] at h
    cases h1 : ReadPascalString i with
    | error e2 =>
      simp only [h1] at h
      obtain ⟨-, -, h3⟩ := triple_inj h
      simp at h3
    | ok v =>
      obtain ⟨nm, r1⟩ := v
      simp only [h1] at h
      cases h2 : ReadPascalString r1 with
      | error e2 =>
        simp only [h2] at h
        obtain ⟨-, -, h3⟩ := triple_inj h
        simp at h3
      | ok v2 =>
        obtain ⟨sc, r2⟩ := v2
        simp only [h2] at h
        have := ih h
        simp at this
        omega

lemma readPlayers_error : ∀ {n : Nat} {acc : List Player} {i : List Nat}
    {ps : List Player} {rem : List Nat} {e : QError},
    readPlayers n acc i = (ps, rem, some e) → e = .truncated := by
  intro n
  induction n with
  | zero => intro acc i ps rem e h; simp [readPlayers] at h
  | succ k ih =>
    intro acc i ps rem e h
    rw [readPlayers] at h
    cases h1 : readByte i with
    | error e2 =>
      simp only [h1] at h
      obtain ⟨-, -, h3⟩ := triple_inj h
      obtain rfl := Option.some.inj h3
      exact readByte_error h1
    | ok v1 =>
      obtain ⟨pingB, r1⟩ := v1
      simp only [h1] at h
      cases h2 : readByte r1 with
      | error e2 =>
        simp only [h2] at h
        obtain ⟨-, -, h3⟩ := triple_inj h
        obtain rfl := Option.some.inj h3
        exact readByte_error h2
      | ok v2 =>
        obtain ⟨plB, r2⟩ := v2
        simp only [h2] at h
        cases h3 : readByte r2 with
        | error e2 =>
          simp only [h3] at h
          obtain ⟨-, -, h4⟩ := triple_inj h
          obtain rfl := Option.some.inj h4
          exact readByte_error h3
        | ok v3 =>
          obtain ⟨teamB, r3⟩ := v3
          simp only [h3] at h
          cases h4 : ReadPascalString r3 with
          | error e2 =>
            simp only [h4] at h
            obtain ⟨-, -, h5⟩ := triple_inj h
            obtain rfl := Option.some.inj h5
            exact readPascal_error h4
          | ok v4 =>
            obtain ⟨nm, r4⟩ := v4
            simp only [h4] at h
            cases h5 : ReadPascalString r4 with
            | error e2 =>
              simp only [h5] at h
              obtain ⟨-, -, h6⟩ := triple_inj h
              obtain rfl := Option.some.inj h6
              exact readPascal_error h5
            | ok v5 =>
              obtain ⟨sc, r5⟩ := v5
              simp only [h5] at h
              exact ih h

lemma readPlayers_ok : ∀ {n : Nat} {acc : List Player} {i : List Nat}
    {ps : List Player} {rem : List Nat},
    readPlayers n acc i = (ps, rem, none) → ps.length = acc.length + n := by
  intro n
  induction n with
  | zero =>
    intro acc i ps rem h
    rw [readPlayers] at h
    obtain ⟨h1, -, -⟩ := triple_inj h
    subst h1
    simp
  | succ k ih =>
    intro acc i ps rem h
    rw [readPlayers] at h
    cases h1 : readByte i with
    | error e2 =>
      simp only [h1] at h
      obtain ⟨-, -, h3⟩ := triple_inj h
      simp at h3
    | ok v1 =>
      obtain ⟨pingB, r1⟩ := v1
      simp only [h1] at h
      cases h2 : readByte r1 with
      | error e2 =>
        simp only [h2] at h
        obtain ⟨-, -, h3⟩ := triple_inj h
        simp at h3
      | ok v2 =>
        obtain ⟨plB, r2⟩ := v2
        simp only [h2] at h
        cases h3 : readByte r2 with
        | error e2 =>
          simp only [h3] at h
          obtain ⟨-, -, h4⟩ := triple_inj h
          simp at h4
        | ok v3 =>
          obtain ⟨teamB, r3⟩ := v3
          simp only [h3] at h
          cases h4 : ReadPascalString r3 with
          | error e2 =>
            simp only [h4] at h
            obtain ⟨-, -, h5⟩ := triple_inj h
            simp at h5
          | ok v4 =>
            obtain ⟨nm, r4⟩ := v4
            simp only [h4] at h
            cases h5 : ReadPascalString r4 with
            | error e2 =>
              simp only [h5] at h
              obtain ⟨-, -, h6⟩ := triple_inj h
              simp at h6
            | ok v5 =>
              obtain ⟨sc, r5⟩ := v5
              simp only [h5] at h
              have := ih h
              simp at this
              omega



lemma readByte_ok_length {i r : List Nat} {b : Nat} (h : readByte i = .ok (b, r)) :
    i.length = 1 + r.length := by
  cases i <;> simp_all [readByte]
  omega

lemma readU16BE_ok_length {i r : List Nat} {v : Nat} (h : readU16BE i = .ok (v, r)) :
    i.length = 2 + r.length := by
  rcases i with _ | ⟨b0, _ | ⟨b1, rr⟩⟩ <;> simp_all [readU16BE]
  omega

lemma readPascal_ok_length {i r s : List Nat} (h : ReadPascalString i = .ok (s, r)) :
    r.length ≤ i.length := by
  rcases i with _ | ⟨b, rest⟩
  · simp [ReadPascalString] at h
  · simp only [ReadPascalString] at h
    split at h
    · split at h
      · simp at h
      · obtain ⟨-, rfl⟩ := Prod.mk.inj (Except.ok.inj h)
        simp
        omega
    · obtain ⟨-, rfl⟩ := Prod.mk.inj (Except.ok.inj h)
      simp

/-! ### Shape lemmas for the game-server decode -/

set_option maxHeartbeats 1000000 in
lemma decodeBody_ok_counts {g : GameServer} {i : List Nat} {g' : GameServer} {rem : List Nat}
    (h : GameServer.decodeBody g i = (g', rem, none))
    (ht : g.teams = []) (hp : g.players = []) :
    g'.teams.length = g'.numTeams ∧ g'.players.length = g'.numPlayers := by
  simp only [GameServer.decodeBody] at h
  repeat' split at h
  all_goals try (obtain ⟨-, -, h3⟩ := triple_inj h; exact Option.noConfusion h3)
  rename_i xT ts rT hTeams xP ps rP hPlayers
  obtain ⟨rfl, -, -⟩ := triple_inj h
  rw [ht] at hTeams
  rw [hp] at hPlayers
  have h1 := readTeams_ok hTeams
  have h2 := readPlayers_ok hPlayers
  simp at h1 h2
  simp [h1, h2]

set_option maxHeartbeats 4000000 in
lemma decodeBody_no_keyMismatch (g : GameServer) (i : List Nat) :
    (GameServer.decodeBody g i).2.2 ≠ some QError.keyMismatch := by
  unfold GameServer.decodeBody
  repeat' split
  all_goals try simp
  all_goals repeat' split
  all_goals try simp
  all_goals (intro hk; subst hk)
  all_goals
    (rename_i heq;
     first
       | exact absurd (readByte_error heq) (by simp)
       | exact absurd (readU16LE_error heq) (by simp)
       | exact absurd (readPascal_error heq) (by simp)
       | exact absurd (readTeams_error heq) (by simp)
       | exact absurd (readPlayers_error heq) (by simp))

/-! ### Shape lemmas for the master-server packet decode -/

set_option maxHeartbeats 4000000 in
lemma packetBody_totalPackets (m : MasterServer) (i : List Nat) :
    (MasterServer.packetBody m i).1.totalPackets = m.totalPackets := by
  unfold MasterServer.packetBody
  repeat' split
  all_goals try simp
  all_goals repeat' split
  all_goals simp

set_option maxHeartbeats 4000000 in
lemma packetBody_no_keyMismatch (m : MasterServer) (i : List Nat) :
    (MasterServer.packetBody m i).2.2 ≠ some QError.keyMismatch := by
  unfold MasterServer.packetBody
  repeat' split
  all_goals try simp
  all_goals repeat' split
  all_goals try simp
  all_goals (intro hk; subst hk)
  all_goals
    (rename_i heq;
     first
       | exact absurd (readByte_error heq) (by simp)
       | exact absurd (readU16BE_error heq) (by simp)
       | exact absurd (readPascal_error heq) (by simp)
       | exact absurd (readServers_error heq) (by simp))

set_option maxHeartbeats 4000000 in
lemma packetBody_ok {m : MasterServer} {i : List Nat} {m' : MasterServer} {rem : List Nat}
    (h : MasterServer.packetBody m i = (m', rem, none)) :
    ∃ cnt, m'.serverCount = (m.serverCount + cnt) % 65536 ∧
      m'.servers.length = m.servers.length + cnt ∧
      7 * cnt + rem.length ≤ i.length ∧
      m'.totalPackets = m.totalPackets := by
  simp only [MasterServer.packetBody] at h
  cases h1 : readByte i with
  | error e =>
    simp only [h1] at h
    obtain ⟨-, -, hx⟩ := triple_inj h
    exact Option.noConfusion hx
  | ok v =>
    obtain ⟨z, r1⟩ := v
    simp only [h1] at h
    by_cases hz : z ≠ 0
    · rw [if_pos hz] at h
      obtain ⟨-, -, hx⟩ := triple_inj h
      exact Option.noConfusion hx
    · rw [if_neg hz] at h
      cases h2 : readByte r1 with
      | error e =>
        simp only [h2] at h
        obtain ⟨-, -, hx⟩ := triple_inj h
        exact Option.noConfusion hx
      | ok v =>
        obtain ⟨marker, r2⟩ := v
        simp only [h2] at h
        by_cases hmk : marker ≠ 0x66
        · rw [if_pos hmk] at h
          obtain ⟨-, -, hx⟩ := triple_inj h
          exact Option.noConfusion hx
        · rw [if_neg hmk] at h
          cases h3 : ReadPascalString r2 with
          | error e =>
            simp only [h3] at h
            obtain ⟨-, -, hx⟩ := triple_inj h
            exact Option.noConfusion hx
          | ok v =>
            obtain ⟨nm, r3⟩ := v
            simp only [h3] at h
            cases h4 : ReadPascalString r3 with
            | error e =>
              simp only [h4] at h
              obtain ⟨-, -, hx⟩ := triple_inj h
              exact Option.noConfusion hx
            | ok v =>
              obtain ⟨mo, r4⟩ := v
              simp only [h4] at h
              cases h5 : readU16BE r4 with
              | error e =>
                simp only [h5] at h
                obtain ⟨-, -, hx⟩ := triple_inj h
                exact Option.noConfusion hx
              | ok v =>
                obtain ⟨cnt, r5⟩ := v
                simp only [h5] at h
                rcases h6 : readServers cnt m.servers r5 with ⟨svs, r6, err⟩
                rw [h6] at h
                cases err with
                | some e =>
                  simp only [] at h
                  obtain ⟨-, -, hx⟩ := triple_inj h
                  exact Option.noConfusion hx
                | none =>
                  simp only [] at h
                  obtain ⟨hm, hrem, -⟩ := triple_inj h
                  subst hm
                  subst hrem
                  obtain ⟨hlen, hconsume⟩ := readServers_ok h6
                  have e1 := readByte_ok_length h1
                  have e2 := readByte_ok_length h2
                  have e3 := readPascal_ok_length h3
                  have e4 := readPascal_ok_length h4
                  have e5 := readU16BE_ok_length h5
                  exact ⟨cnt, by simp, by simp [hlen], by omega, by simp⟩

set_option maxHeartbeats 4000000 in
lemma packetBody_pair (m m2 : MasterServer) (i : List Nat)
    (hs : m2.servers = []) (hc : m2.serverCount = 0) :
    (MasterServer.packetBody m i).2.2 = (MasterServer.packetBody m2 i).2.2 ∧
    (MasterServer.packetBody m i).2.1 = (MasterServer.packetBody m2 i).2.1 ∧
    (MasterServer.packetBody m i).1.servers =
      m.servers ++ (MasterServer.packetBody m2 i).1.servers ∧
    ((MasterServer.packetBody m i).2.2 = none →
      (MasterServer.packetBody m i).1.serverCount =
        (m.serverCount + (MasterServer.packetBody m2 i).1.serverCount) % 65536) := by
  simp only [MasterServer.packetBody, hs, hc]
  cases h1 : readByte i with
  | error e => simp [hs]
  | ok v =>
    obtain ⟨z, r1⟩ := v
    simp only [h1]
    by_cases hz : z ≠ 0
    · simp [hz, hs]
    · simp only [if_neg hz]
      cases h2 : readByte r1 with
      | error e => simp [hs]
      | ok v =>
        obtain ⟨marker, r2⟩ := v
        simp only [h2]
        by_cases hmk : marker ≠ 0x66
        · simp [hmk, hs]
        · simp only [if_neg hmk]
          cases h3 : ReadPascalString r2 with
          | error e => simp [hs]
          | ok v =>
            obtain ⟨nm, r3⟩ := v
            simp only [h3]
            cases h4 : ReadPascalString r3 with
            | error e => simp [hs]
            | ok v =>
              obtain ⟨mo, r4⟩ := v
              simp only [h4]
              cases h5 : readU16BE r4 with
              | error e => simp [hs]
              | ok v =>
                obtain ⟨cnt, r5⟩ := v
                simp only [h5]
                rcases h6 : readServers cnt [] r5 with ⟨csvs, crem, cerr⟩
                rw [readServers_acc cnt m.servers r5, h6]
                cases cerr with
                | some e => simp
                | none =>
                  simp
                  try omega

set_option maxHeartbeats 4000000 in
lemma packetFields_pair (m : MasterServer) (key : Nat) (buf : List Nat) :
    (MasterServer.packetFields m key buf).2.2 =
      (MasterServer.packetFields NewMasterServer key buf).2.2 ∧
    (MasterServer.packetFields m key buf).2.1 =
      (MasterServer.packetFields NewMasterServer key buf).2.1 ∧
    (MasterServer.packetFields m key buf).1.servers =
      m.servers ++ (MasterServer.packetFields NewMasterServer key buf).1.servers ∧
    ((MasterServer.packetFields m key buf).2.2 = none →
      (MasterServer.packetFields m key buf).1.serverCount =
        (m.serverCount + (MasterServer.packetFields NewMasterServer key buf).1.serverCount) %
          65536) := by
  unfold MasterServer.packetFields
  cases h1 : readByte buf with
  | error e => simp [NewMasterServer]
  | ok v =>
    obtain ⟨b0, r1⟩ := v
    simp only [h1]
    by_cases hb0 : b0 ≠ 0x10
    · simp [hb0, NewMasterServer]
    · simp only [if_neg hb0]
      cases h2 : readByte r1 with
      | error e => simp [NewMasterServer]
      | ok v =>
        obtain ⟨b1, r2⟩ := v
        simp only [h2]
        by_cases hb1 : b1 ≠ 0x06
        · simp [hb1, NewMasterServer]
        · simp only [if_neg hb1]
          cases h3 : readByte r2 with
          | error e => simp [NewMasterServer]
          | ok v =>
            obtain ⟨pn, r3⟩ := v
            simp only [h3]
            by_cases hpn : pn < 1 ∨ pn > 5
            · simp only [if_pos hpn]
              simp [NewMasterServer]
            · simp only [if_neg hpn]
              cases h4 : readByte r3 with
              | error e => simp [NewMasterServer]
              | ok v =>
                obtain ⟨pt, r4⟩ := v
                simp only [h4]
                by_cases hpt : pt < 1 ∨ pt > 5
                · simp only [if_pos hpt]
                  simp [NewMasterServer]
                · simp only [if_neg hpt]
                  by_cases hord : pn > pt
                  · simp only [if_pos hord]
                    simp [NewMasterServer]
                  · simp only [if_neg hord]
                    cases h5 : readU16BE r4 with
                    | error e => simp [NewMasterServer]
                    | ok v =>
                      obtain ⟨recvKey, r5⟩ := v
                      simp only [h5]
                      by_cases hkey : key ≠ recvKey
                      · simp [hkey, NewMasterServer]
                      · simp only [if_neg hkey]
                        have hp := packetBody_pair { m with totalPackets := pt }
                          { NewMasterServer with totalPackets := pt } r5
                          (by simp [NewMasterServer]) (by simp [NewMasterServer])
                        simpa using hp

set_option maxHeartbeats 4000000 in
lemma packetFields_ok {m : MasterServer} {key : Nat} {buf : List Nat}
    {m' : MasterServer} {rem : List Nat}
    (h : MasterServer.packetFields m key buf = (m', rem, none)) :
    ∃ cnt, m'.serverCount = (m.serverCount + cnt) % 65536 ∧
      m'.servers.length = m.servers.length + cnt ∧
      7 * cnt + rem.length ≤ buf.length ∧
      1 ≤ m'.totalPackets ∧ m'.totalPackets ≤ 5 := by
  unfold MasterServer.packetFields at h
  cases h1 : readByte buf with
  | error e =>
    simp only [h1] at h
    obtain ⟨-, -, hx⟩ := triple_inj h
    exact Option.noConfusion hx
  | ok v =>
    obtain ⟨b0, r1⟩ := v
    simp only [h1] at h
    by_cases hb0 : b0 ≠ 0x10
    · rw [if_pos hb0] at h
      obtain ⟨-, -, hx⟩ := triple_inj h
      exact Option.noConfusion hx
    · rw [if_neg hb0] at h
      cases h2 : readByte r1 with
      | error e =>
        simp only [h2] at h
        obtain ⟨-, -, hx⟩ := triple_inj h
        exact Option.noConfusion hx
      | ok v =>
        obtain ⟨b1, r2⟩ := v
        simp only [h2] at h
        by_cases hb1 : b1 ≠ 0x06
        · rw [if_pos hb1] at h
          obtain ⟨-, -, hx⟩ := triple_inj h
          exact Option.noConfusion hx
        · rw [if_neg hb1] at h
          cases h3 : readByte r2 with
          | error e =>
            simp only [h3] at h
            obtain ⟨-, -, hx⟩ := triple_inj h
            exact Option.noConfusion hx
          | ok v =>
            obtain ⟨pn, r3⟩ := v
            simp only [h3] at h
            by_cases hpn : pn < 1 ∨ pn > 5
            · rw [if_pos hpn] at h
              obtain ⟨-, -, hx⟩ := triple_inj h
              exact Option.noConfusion hx
            · rw [if_neg hpn] at h
              cases h4 : readByte r3 with
              | error e =>
                simp only [h4] at h
                obtain ⟨-, -, hx⟩ := triple_inj h
                exact Option.noConfusion hx
              | ok v =>
                obtain ⟨pt, r4⟩ := v
                simp only [h4] at h
                by_cases hpt : pt < 1 ∨ pt > 5
                · rw [if_pos hpt] at h
                  obtain ⟨-, -, hx⟩ := triple_inj h
                  exact Option.noConfusion hx
                · rw [if_neg hpt] at h
                  by_cases hord : pn > pt
                  · rw [if_pos hord] at h
                    obtain ⟨-, -, hx⟩ := triple_inj h
                    exact Option.noConfusion hx
                  · rw [if_neg hord] at h
                    cases h5 : readU16BE r4 with
                    | error e =>
                      simp only [h5] at h
                      obtain ⟨-, -, hx⟩ := triple_inj h
                      exact Option.noConfusion hx
                    | ok v =>
                      obtain ⟨recvKey, r5⟩ := v
                      simp only [h5] at h
                      by_cases hkey : key ≠ recvKey
                      · rw [if_pos hkey] at h
                        obtain ⟨-, -, hx⟩ := triple_inj h
                        exact Option.noConfusion hx
                      · rw [if_neg hkey] at h
                        obtain ⟨cnt, hsc, hsl, hcons, htp⟩ := packetBody_ok h
                        have e1 := readByte_ok_length h1
                        have e2 := readByte_ok_length h2
                        have e3 := readByte_ok_length h3
                        have e4 := readByte_ok_length h4
                        have e5 := readU16BE_ok_length h5
                        refine ⟨cnt, by simpa using hsc, by simpa using hsl, by omega, ?_, ?_⟩
                        · rw [htp]; simp; omega
                        · rw [htp]; simp; omega

set_option maxHeartbeats 4000000 in
lemma processPacket_step {m : MasterServer} {key : Nat} {d : List Nat} {m1 : MasterServer}
    (h : MasterServer.processPacket m key (d.take 1024) = (m1, none)) :
    m1.servers = m.servers ++ packetServers key d ∧
    m1.serverCount = (m.serverCount + packetCount key d) % 65536 ∧
    packetCount key d = (packetServers key d).length ∧
    7 * (packetServers key d).length ≤ 1024 ∧
    1 ≤ m1.totalPackets ∧ m1.totalPackets ≤ 5 := by
  unfold MasterServer.processPacket at h
  rcases hf : MasterServer.packetFields m key (d.take 1024) with ⟨mf, rem, err⟩
  rw [hf] at h
  cases err with
  | some e => simp at h
  | none =>
    simp only [] at h
    by_cases hrem : rem.length ≠ 0
    · rw [if_pos hrem] at h
      simp at h
    · rw [if_neg hrem] at h
      obtain ⟨hm1, -⟩ := Prod.mk.inj h
      subst hm1
      have hp := packetFields_pair m key (d.take 1024)
      rcases hF : MasterServer.packetFields NewMasterServer key (d.take 1024) with ⟨mf0, rem0, err0⟩
      rw [hf, hF] at hp
      simp only [] at hp
      obtain ⟨herr0, hrem0, hsrv, hcnt⟩ := hp
      obtain rfl : err0 = none := herr0.symm
      obtain rfl : rem0 = rem := hrem0.symm
      have hPP0 : MasterServer.processPacket NewMasterServer key (d.take 1024) = (mf0, none) := by
        unfold MasterServer.processPacket
        rw [hF]
        simp [hrem]
      have hps : packetServers key d = mf0.servers := by
        simp [packetServers, hPP0]
      have hpc : packetCount key d = mf0.serverCount := by
        simp [packetCount, hPP0]
      obtain ⟨cnt0, hc1, hc2, hc3, -, -⟩ := packetFields_ok hF
      have hNs : NewMasterServer.servers = [] := by simp [NewMasterServer]
      have hNc : NewMasterServer.serverCount = 0 := by simp [NewMasterServer]
      rw [hNs] at hc2
      rw [hNc] at hc1
      have htake : (d.take 1024).length ≤ 1024 := by
        simp
      have hcnt0 : cnt0 ≤ 146 := by omega
      have hc1' : mf0.serverCount = cnt0 := by
        rw [hc1]
        omega
      obtain ⟨-, -, -, -, htp1, htp2⟩ := packetFields_ok hf
      refine ⟨by rw [hps]; exact hsrv, by rw [hpc]; exact hcnt trivial, ?_, ?_, htp1, htp2⟩
      · rw [hps, hpc, hc1']
        simp [hc2]
      · rw [hps]
        simp [hc2]
        omega

set_option maxHeartbeats 4000000 in
lemma queryLoop_spec (key : Nat) : ∀ (packets : List (List Nat)) (m : MasterServer) (p : Nat)
    (m' : MasterServer) (rest : List (List Nat)),
    MasterServer.queryLoop key packets m p = (m', rest, none) →
    m.serverCount = m.servers.length →
    m.servers.length ≤ 146 * p →
    m.totalPackets ≤ 5 → p ≤ 5 →
    ∃ k, k ≤ packets.length ∧ rest = packets.drop k ∧ p + k ≤ 5 ∧
      (p < m.totalPackets → 1 ≤ k) ∧
      m'.servers = m.servers ++ ((packets.take k).map (packetServers key)).flatten ∧
      m'.serverCount = m.serverCount + ((packets.take k).map (packetCount key)).sum ∧
      m'.serverCount = m'.servers.length := by
  intro packets
  induction packets with
  | nil =>
    intro m p m' rest h hinv hbound htot hp
    rw [MasterServer.queryLoop] at h
    by_cases hcond : p < m.totalPackets
    · rw [if_pos hcond] at h
      obtain ⟨-, -, hx⟩ := triple_inj h
      exact Option.noConfusion hx
    · rw [if_neg hcond] at h
      obtain ⟨hm, hr, -⟩ := triple_inj h
      subst hm
      subst hr
      exact ⟨0, by simp, by simp, by omega, fun hc => absurd hc hcond, by simp, by simp, hinv⟩
  | cons d ds ih =>
    intro m p m' rest h hinv hbound htot hp
    rw [MasterServer.queryLoop] at h
    by_cases hcond : p < m.totalPackets
    · rw [if_pos hcond] at h
      rcases hpp : MasterServer.processPacket m key (d.take 1024) with ⟨m1, err1⟩
      rw [hpp] at h
      cases err1 with
      | some e =>
        simp only [] at h
        obtain ⟨-, -, hx⟩ := triple_inj h
        exact Option.noConfusion hx
      | none =>
        simp only [] at h
        obtain ⟨hsrv, hcnt, hpcl, hbound146, htp1, htp2⟩ := processPacket_step hpp
        have hdelta : (packetServers key d).length ≤ 146 := by omega
        have hplt : p ≤ 4 := by omega
        have hsum : m.serverCount + packetCount key d < 65536 := by
          rw [hinv, hpcl]
          omega
        have hcnt' : m1.serverCount = m.serverCount + packetCount key d := by
          rw [hcnt, Nat.mod_eq_of_lt hsum]
        have hinv1 : m1.serverCount = m1.servers.length := by
          rw [hcnt', hsrv, hinv, hpcl]
          simp
        have hbound1 : m1.servers.length ≤ 146 * (p + 1) := by
          rw [hsrv]
          simp
          omega
        obtain ⟨k, hk1, hk2, hk3, -, hk5, hk6, hk7⟩ :=
          ih m1 (p + 1) m' rest h hinv1 hbound1 htp2 (by omega)
        refine ⟨k + 1, by simpa using hk1, by simpa using hk2, by omega, fun _ => by omega,
          ?_, ?_, hk7⟩
        · rw [hk5, hsrv]
          simp
        · rw [hk6, hcnt']
          simp
          omega
    · rw [if_neg hcond] at h
      obtain ⟨hm, hr, -⟩ := triple_inj h
      subst hm
      subst hr
      exact ⟨0, by simp, by simp, by omega, fun hc => absurd hc hcond, by simp, by simp, hinv⟩

lemma decodeFields_ok_counts {g : GameServer} {key : Nat} {buf : List Nat}
    {g' : GameServer} {rem : List Nat}
    (h : GameServer.decodeFields g key buf = (g', rem, none))
    (ht : g.teams = []) (hp : g.players = []) :
    g'.teams.length = g'.numTeams ∧ g'.players.length = g'.numPlayers := by
  unfold GameServer.decodeFields at h
  cases h1 : readByte buf with
  | error e =>
    simp only [h1] at h
    obtain ⟨-, -, hx⟩ := triple_inj h
    exact Option.noConfusion hx
  | ok v =>
    obtain ⟨b0, r1⟩ := v
    simp only [h1] at h
    by_cases hb0 : b0 ≠ 0x63
    · rw [if_pos hb0] at h
      obtain ⟨-, -, hx⟩ := triple_inj h
      exact Option.noConfusion hx
    · rw [if_neg hb0] at h
      cases h2 : readU16BE r1 with
      | error e =>
        simp only [h2] at h
        obtain ⟨-, -, hx⟩ := triple_inj h
        exact Option.noConfusion hx
      | ok v =>
        obtain ⟨readKey, r2⟩ := v
        simp only [h2] at h
        by_cases hkey : key ≠ readKey
        · rw [if_pos hkey] at h
          obtain ⟨-, -, hx⟩ := triple_inj h
          exact Option.noConfusion hx
        · rw [if_neg hkey] at h
          exact decodeBody_ok_counts h ht hp

lemma queryReset_overwrite (g0 : GameServer) (ts : List Team) (ps : List Player) :
    queryReset { g0 with teams := ts, players := ps } = queryReset g0 := by
  cases g0
  simp [queryReset]

/-- C6: after every successful `GameServer.Query` the decoded team list has
exactly `numTeams` entries and the decoded player list exactly `numPlayers`
entries; moreover both lists are cleared and rebuilt from scratch on each
attempt, so the query result does not depend on the entity's previous team
and player lists. -/
theorem gameQuery_team_player_counts (g0 : GameServer) (key : Nat) (d : List Nat)
    (h : (GameServer.Query g0 key d).2 = none) :
    (GameServer.Query g0 key d).1.teams.length = (GameServer.Query g0 key d).1.numTeams ∧
    (GameServer.Query g0 key d).1.players.length = (GameServer.Query g0 key d).1.numPlayers ∧
    ∀ ts ps, GameServer.Query { g0 with teams := ts, players := ps } key d =
      GameServer.Query g0 key d := by
  have hindep : ∀ ts ps, GameServer.Query { g0 with teams := ts, players := ps } key d =
      GameServer.Query g0 key d := by
    intro ts ps
    unfold GameServer.Query
    rw [queryReset_overwrite]
  refine ⟨?_, ?_, hindep⟩ <;>
  · unfold GameServer.Query at h ⊢
    by_cases hlen : (d.take 2048).length < 20
    · rw [if_pos hlen] at h
      simp at h
    · rw [if_neg hlen] at h ⊢
      rcases hb : GameServer.decodeFields (queryReset g0) key (d.take 2048) with ⟨g1, rem, err⟩
      rw [hb] at h
      cases err with
      | some e => simp at h
      | none =>
        cases rem with
        | cons x xs => simp at h
        | nil =>
          have hc := decodeFields_ok_counts hb (by simp [queryReset]) (by simp [queryReset])
          simp [hc.1, hc.2]

theorem gameQuery_team_player_counts_witness :
    (GameServer.Query NewGameServer 258
        [0x63, 1, 2, 0x62, 0, 0, 0, 1, 0, 1, 8, 144, 1, 0, 0, 0, 0, 1, 0, 0,
          1, 65, 0, 50, 0, 0, 1, 66, 0]).1.teams.length =
      (GameServer.Query NewGameServer 258
        [0x63, 1, 2, 0x62, 0, 0, 0, 1, 0, 1, 8, 144, 1, 0, 0, 0, 0, 1, 0, 0,
          1, 65, 0, 50, 0, 0, 1, 66, 0]).1.numTeams ∧
    (GameServer.Query NewGameServer 258
        [0x63, 1, 2, 0x62, 0, 0, 0, 1, 0, 1, 8, 144, 1, 0, 0, 0, 0, 1, 0, 0,
          1, 65, 0, 50, 0, 0, 1, 66, 0]).1.players.length =
      (GameServer.Query NewGameServer 258
        [0x63, 1, 2, 0x62, 0, 0, 0, 1, 0, 1, 8, 144, 1, 0, 0, 0, 0, 1, 0, 0,
          1, 65, 0, 50, 0, 0, 1, 66, 0]).1.numPlayers ∧
    ∀ ts ps, GameServer.Query { NewGameServer with teams := ts, players := ps } 258
        [0x63, 1, 2, 0x62, 0, 0, 0, 1, 0, 1, 8, 144, 1, 0, 0, 0, 0, 1, 0, 0,
          1, 65, 0, 50, 0, 0, 1, 66, 0] =
      GameServer.Query NewGameServer 258
        [0x63, 1, 2, 0x62, 0, 0, 0, 1, 0, 1, 8, 144, 1, 0, 0, 0, 0, 1, 0, 0,
          1, 65, 0, 50, 0, 0, 1, 66, 0] :=
  gameQuery_team_player_counts NewGameServer 258
    [0x63, 1, 2, 0x62, 0, 0, 0, 1, 0, 1, 8, 144, 1, 0, 0, 0, 0, 1, 0, 0,
      1, 65, 0, 50, 0, 0, 1, 66, 0] (by decide)

/-- C2: every successful `MasterServer.Query` consumes between 1 and 5 reply
packets; the final server list is the concatenation, in packet receive
order, of each consumed packet's decoded `"ip:port"` strings; the final
`serverCount` is the accumulated sum of the per-packet server counts; and
`len(servers) = serverCount`. -/
theorem masterQuery_reassembly (m0 : MasterServer) (key : Nat)
    (packets : List (List Nat)) (m : MasterServer) (rest : List (List Nat))
    (h : MasterServer.Query m0 key packets = (m, rest, none)) :
    ∃ k, 1 ≤ k ∧ k ≤ 5 ∧ k ≤ packets.length ∧ rest = packets.drop k ∧
      m.servers = ((packets.take k).map (packetServers key)).flatten ∧
      m.serverCount = ((packets.take k).map (packetCount key)).sum ∧
      m.servers.length = m.serverCount := by
  unfold MasterServer.Query at h
  obtain ⟨k, hk1, hk2, hk3, hk4, hk5, hk6, hk7⟩ :=
    queryLoop_spec key packets (masterReset m0) 0 m rest h (by simp [masterReset])
      (by simp [masterReset]) (by simp [masterReset]) (by omega)
  refine ⟨k, hk4 (by simp [masterReset]), by omega, hk1, hk2, ?_, ?_, hk7.symm⟩
  · rw [hk5]
    simp [masterReset]
  · rw [hk6]
    simp [masterReset]

theorem masterQuery_reassembly_witness :
    ∃ k, 1 ≤ k ∧ k ≤ 5 ∧
      k ≤ [[0x10, 0x06, 1, 2, 0, 7, 0, 0x66, 0, 0, 0, 1, 6, 1, 2, 3, 4, 5, 0],
            [0x10, 0x06, 2, 2, 0, 7, 0, 0x66, 0, 0, 0, 1, 6, 9, 9, 9, 9, 0, 1]].length ∧
      ([] : List (List Nat)) =
        [[0x10, 0x06, 1, 2, 0, 7, 0, 0x66, 0, 0, 0, 1, 6, 1, 2, 3, 4, 5, 0],
          [0x10, 0x06, 2, 2, 0, 7, 0, 0x66, 0, 0, 0, 1, 6, 9, 9, 9, 9, 0, 1]].drop k ∧
      (MasterServer.Query NewMasterServer 7
          [[0x10, 0x06, 1, 2, 0, 7, 0, 0x66, 0, 0, 0, 1, 6, 1, 2, 3, 4, 5, 0],
            [0x10, 0x06, 2, 2, 0, 7, 0, 0x66, 0, 0, 0, 1, 6, 9, 9, 9, 9, 0, 1]]).1.servers =
        (([[0x10, 0x06, 1, 2, 0, 7, 0, 0x66, 0, 0, 0, 1, 6, 1, 2, 3, 4, 5, 0],
            [0x10, 0x06, 2, 2, 0, 7, 0, 0x66, 0, 0, 0, 1, 6, 9, 9, 9, 9, 0, 1]].take k).map
          (packetServers 7)).flatten ∧
      (MasterServer.Query NewMasterServer 7
          [[0x10, 0x06, 1, 2, 0, 7, 0, 0x66, 0, 0, 0, 1, 6, 1, 2, 3, 4, 5, 0],
            [0x10, 0x06, 2, 2, 0, 7, 0, 0x66, 0, 0, 0, 1, 6, 9, 9, 9, 9, 0, 1]]).1.serverCount =
        (([[0x10, 0x06, 1, 2, 0, 7, 0, 0x66, 0, 0, 0, 1, 6, 1, 2, 3, 4, 5, 0],
            [0x10, 0x06, 2, 2, 0, 7, 0, 0x66, 0, 0, 0, 1, 6, 9, 9, 9, 9, 0, 1]].take k).map
          (packetCount 7)).sum ∧
      (MasterServer.Query NewMasterServer 7
          [[0x10, 0x06, 1, 2, 0, 7, 0, 0x66, 0, 0, 0, 1, 6, 1, 2, 3, 4, 5, 0],
            [0x10, 0x06, 2, 2, 0, 7, 0, 0x66, 0, 0, 0, 1, 6, 9, 9, 9, 9, 0, 1]]).1.servers.length =
      (MasterServer.Query NewMasterServer 7
          [[0x10, 0x06, 1, 2, 0, 7, 0, 0x66, 0, 0, 0, 1, 6, 1, 2, 3, 4, 5, 0],
            [0x10, 0x06, 2, 2, 0, 7, 0, 0x66, 0, 0, 0, 1, 6, 9, 9, 9, 9, 0, 1]]).1.serverCount :=
  masterQuery_reassembly NewMasterServer 7
    [[0x10, 0x06, 1, 2, 0, 7, 0, 0x66, 0, 0, 0, 1, 6, 1, 2, 3, 4, 5, 0],
      [0x10, 0x06, 2, 2, 0, 7, 0, 0x66, 0, 0, 0, 1, 6, 9, 9, 9, 9, 0, 1]]
    (MasterServer.Query NewMasterServer 7
      [[0x10, 0x06, 1, 2, 0, 7, 0, 0x66, 0, 0, 0, 1, 6, 1, 2, 3, 4, 5, 0],
        [0x10, 0x06, 2, 2, 0, 7, 0, 0x66, 0, 0, 0, 1, 6, 9, 9, 9, 9, 0, 1]]).1
    [] (by rfl)

/-- C9: the expected-total-packets loop bound is re-assigned from every
received packet's validated packet-total field (regardless of whether the
rest of that packet decodes), and a successful query consumes between 1 and
5 reply packets. -/
theorem masterQuery_totalPackets (m m0 m' : MasterServer) (key pn pt k0 k1 : Nat)
    (rest : List Nat) (packets rest' : List (List Nat))
    (hpn1 : 1 ≤ pn) (hpn5 : pn ≤ 5) (hpt1 : 1 ≤ pt) (hpt5 : pt ≤ 5) (hord : pn ≤ pt)
    (hkey : key = k0 * 256 + k1) :
    (MasterServer.packetFields m key
        (0x10 :: 0x06 :: pn :: pt :: k0 :: k1 :: rest)).1.totalPackets = pt ∧
    (MasterServer.Query m0 key packets = (m', rest', none) →
      1 ≤ packets.length - rest'.length ∧ packets.length - rest'.length ≤ 5) := by
  constructor
  · unfold MasterServer.packetFields
    simp only [readByte, readU16BE]
    rw [if_neg (by omega : ¬(0x10 ≠ 0x10)), if_neg (by omega : ¬(0x06 ≠ 0x06)),
      if_neg (by omega : ¬(pn < 1 ∨ pn > 5)), if_neg (by omega : ¬(pt < 1 ∨ pt > 5)),
      if_neg (by omega : ¬(pn > pt)), if_neg (by omega : ¬(key ≠ k0 * 256 + k1))]
    rw [packetBody_totalPackets]
  · intro h
    unfold MasterServer.Query at h
    obtain ⟨k, hk1, hk2, hk3, hk4, -, -, -⟩ :=
      queryLoop_spec key packets (masterReset m0) 0 m' rest' h (by simp [masterReset])
        (by simp [masterReset]) (by simp [masterReset]) (by omega)
    have hdrop : rest'.length = packets.length - k := by
      rw [hk2]
      simp
    have h1k := hk4 (by simp [masterReset])
    omega

theorem masterQuery_totalPackets_witness :
    (MasterServer.packetFields NewMasterServer 7
        (0x10 :: 0x06 :: 1 :: 3 :: 0 :: 7 :: [])).1.totalPackets = 3 ∧
    (1 ≤ ([[0x10, 0x06, 1, 1, 0, 7, 0, 0x66, 0, 0, 0, 0]] : List (List Nat)).length -
        ([] : List (List Nat)).length ∧
      ([[0x10, 0x06, 1, 1, 0, 7, 0, 0x66, 0, 0, 0, 0]] : List (List Nat)).length -
        ([] : List (List Nat)).length ≤ 5) :=
  ⟨(masterQuery_totalPackets NewMasterServer NewMasterServer NewMasterServer 7 1 3 0 7 [] [] []
      (by decide) (by decide) (by decide) (by decide) (by decide) (by decide)).1,
    (masterQuery_totalPackets NewMasterServer NewMasterServer
      (MasterServer.Query NewMasterServer 7
        [[0x10, 0x06, 1, 1, 0, 7, 0, 0x66, 0, 0, 0, 0]]).1 7 1 3 0 7 []
      [[0x10, 0x06, 1, 1, 0, 7, 0, 0x66, 0, 0, 0, 0]] []
      (by decide) (by decide) (by decide) (by decide) (by decide) (by decide)).2 (by rfl)⟩

/-- C7: a game-server reply (of valid length and opcode) or a master-server
reply packet (with valid header fields) fails with the key-mismatch error
exactly when its echoed big-endian correlation key differs from the key
sent in the request: a differing key is rejected even if the rest of the
reply is well formed, and a matching key never produces this error. -/
theorem query_key_mismatch (g0 : GameServer) (key k0 k1 : Nat) (rest : List Nat)
    (m : MasterServer) (pn pt k0' k1' : Nat) (rest' : List Nat)
    (hlen : (0x63 :: k0 :: k1 :: rest).length ≤ 2048)
    (hlen20 : 20 ≤ (0x63 :: k0 :: k1 :: rest).length)
    (hpn1 : 1 ≤ pn) (hpn5 : pn ≤ 5) (hpt1 : 1 ≤ pt) (hpt5 : pt ≤ 5) (hord : pn ≤ pt) :
    ((GameServer.Query g0 key (0x63 :: k0 :: k1 :: rest)).2 = some QError.keyMismatch ↔
      key ≠ k0 * 256 + k1) ∧
    ((MasterServer.processPacket m key
        (0x10 :: 0x06 :: pn :: pt :: k0' :: k1' :: rest')).2 = some QError.keyMismatch ↔
      key ≠ k0' * 256 + k1') := by
  constructor
  · simp only [GameServer.Query]
    rw [List.take_of_length_le hlen]
    rw [if_neg (by omega : ¬((0x63 :: k0 :: k1 :: rest).length < 20))]
    simp only [GameServer.decodeFields, readByte, readU16BE]
    rw [if_neg (by omega : ¬((0x63 : Nat) ≠ 0x63))]
    by_cases hk : key = k0 * 256 + k1
    · rw [if_neg (by omega : ¬(key ≠ k0 * 256 + k1))]
      simp only [hk, ne_eq, not_true_eq_false, iff_false]
      rcases hb : GameServer.decodeBody (queryReset g0) rest with ⟨g1, rem1, err1⟩
      have hnk := decodeBody_no_keyMismatch (queryReset g0) rest
      rw [hb] at hnk
      simp only [] at hnk
      cases err1 with
      | some e => simpa using hnk
      | none =>
        cases rem1 with
        | nil => simp
        | cons x xs => simp
    · rw [if_pos hk]
      simpa using hk
  · simp only [MasterServer.processPacket, MasterServer.packetFields, readByte, readU16BE]
    rw [if_neg (by omega : ¬((0x10 : Nat) ≠ 0x10)), if_neg (by omega : ¬((0x06 : Nat) ≠ 0x06)),
      if_neg (by omega : ¬(pn < 1 ∨ pn > 5)), if_neg (by omega : ¬(pt < 1 ∨ pt > 5)),
      if_neg (by omega : ¬(pn > pt))]
    by_cases hk : key = k0' * 256 + k1'
    · rw [if_neg (by omega : ¬(key ≠ k0' * 256 + k1'))]
      simp only [hk, ne_eq, not_true_eq_false, iff_false]
      rcases hb : MasterServer.packetBody { m with totalPackets := pt } rest' with ⟨m1, rem1, err1⟩
      have hnk := packetBody_no_keyMismatch { m with totalPackets := pt } rest'
      rw [hb] at hnk
      simp only [] at hnk
      cases err1 with
      | some e => simpa using hnk
      | none =>
        cases rem1 with
        | nil => simp
        | cons x xs => simp
    · rw [if_pos hk]
      simpa using hk

theorem query_key_mismatch_witness :
    ((GameServer.Query NewGameServer 9
        (0x63 :: 0 :: 0 :: List.replicate 17 0)).2 = some QError.keyMismatch ↔
      (9 : Nat) ≠ 0 * 256 + 0) ∧
    ((MasterServer.processPacket NewMasterServer 9
        (0x10 :: 0x06 :: 2 :: 4 :: 0 :: 9 :: [0, 0x66, 0, 0, 0, 0])).2 =
        some QError.keyMismatch ↔ (9 : Nat) ≠ 0 * 256 + 9) :=
  query_key_mismatch NewGameServer 9 0 0 (List.replicate 17 0) NewMasterServer 2 4 0 9
    [0, 0x66, 0, 0, 0, 0] (by simp) (by simp) (by decide) (by decide) (by decide) (by decide)
    (by decide)

/-- C8: when the structural decode of a game-server reply or of a
master-server reply packet succeeds with `rem` unconsumed bytes, the query
fails with the trailing-data error exactly when `rem` is non-empty, and a
decode that consumes the buffer exactly returns the decoded state with no
error. -/
theorem query_trailing_data (g0 g1 : GameServer) (key : Nat) (d rem : List Nat)
    (m m1 : MasterServer) (key2 : Nat) (buf rem2 : List Nat)
    (hlen : d.length ≤ 2048) (h20 : 20 ≤ d.length)
    (hg : GameServer.decodeFields (queryReset g0) key d = (g1, rem, none))
    (hm : MasterServer.packetFields m key2 buf = (m1, rem2, none)) :
    ((GameServer.Query g0 key d).2 = some QError.trailingData ↔ rem ≠ []) ∧
    (rem = [] → GameServer.Query g0 key d = (g1, none)) ∧
    ((MasterServer.processPacket m key2 buf).2 = some QError.trailingData ↔ rem2 ≠ []) ∧
    (rem2 = [] → MasterServer.processPacket m key2 buf = (m1, none)) := by
  have hq : GameServer.Query g0 key d =
      (if rem.length ≠ 0 then (g1, some QError.trailingData) else (g1, none)) := by
    simp only [GameServer.Query]
    rw [List.take_of_length_le hlen]
    rw [if_neg (by omega : ¬(d.length < 20))]
    rw [hg]
  have hq2 : MasterServer.processPacket m key2 buf =
      (if rem2.length ≠ 0 then (m1, some QError.trailingData) else (m1, none)) := by
    simp only [MasterServer.processPacket]
    rw [hm]
  refine ⟨?_, ?_, ?_, ?_⟩
  · rw [hq]
    cases rem with
    | nil => simp
    | cons x xs => simp
  · intro hnil
    rw [hq, hnil]
    simp
  · rw [hq2]
    cases rem2 with
    | nil => simp
    | cons x xs => simp
  · intro hnil
    rw [hq2, hnil]
    simp

theorem query_trailing_data_witness :
    ((GameServer.Query NewGameServer 258
        [0x63, 1, 2, 0x62, 0, 0, 0, 1, 0, 2, 8, 144, 1, 0, 0, 0, 0, 0, 0, 0, 50, 0, 0, 1,
          66, 0, 50, 0, 1, 1, 67, 0]).2 = some QError.trailingData ↔ ([] : List Nat) ≠ []) ∧
    (([] : List Nat) = [] →
      GameServer.Query NewGameServer 258
        [0x63, 1, 2, 0x62, 0, 0, 0, 1, 0, 2, 8, 144, 1, 0, 0, 0, 0, 0, 0, 0, 50, 0, 0, 1,
          66, 0, 50, 0, 1, 1, 67, 0] =
      ({ game := [], version := [], name := [], dedicated := true, password := false,
          numPlayers := 2, maxPlayers := 8, cpuSpeed := 400, mod := [], serverType := [],
          mission := [], info := [], numTeams := 0, teamScoreHeader := [],
          playerScoreHeader := [],
          teams := [],
          players := [{ name := [66], team := 0, score := [], ping := 50, pl := 0 },
            { name := [67], team := 1, score := [], ping := 50, pl := 0 }] }, none)) ∧
    ((MasterServer.processPacket NewMasterServer 7
        [0x10, 0x06, 1, 1, 0, 7, 0, 0x66, 0, 0, 0, 0, 42]).2 = some QError.trailingData ↔
      ([42] : List Nat) ≠ []) ∧
    (([42] : List Nat) = [] →
      MasterServer.processPacket NewMasterServer 7
        [0x10, 0x06, 1, 1, 0, 7, 0, 0x66, 0, 0, 0, 0, 42] =
      ({ name := [], motd := [], serverCount := 0, servers := [], totalPackets := 1 }, none)) :=
  query_trailing_data NewGameServer
    { game := [], version := [], name := [], dedicated := true, password := false,
      numPlayers := 2, maxPlayers := 8, cpuSpeed := 400, mod := [], serverType := [],
      mission := [], info := [], numTeams := 0, teamScoreHeader := [], playerScoreHeader := [],
      teams := [],
      players := [{ name := [66], team := 0, score := [], ping := 50, pl := 0 },
        { name := [67], team := 1, score := [], ping := 50, pl := 0 }] }
    258
    [0x63, 1, 2, 0x62, 0, 0, 0, 1, 0, 2, 8, 144, 1, 0, 0, 0, 0, 0, 0, 0, 50, 0, 0, 1,
      66, 0, 50, 0, 1, 1, 67, 0]
    []
    NewMasterServer
    { name := [], motd := [], serverCount := 0, servers := [], totalPackets := 1 }
    7 [0x10, 0x06, 1, 1, 0, 7, 0, 0x66, 0, 0, 0, 0, 42] [42]
    (by decide) (by decide) (by decide) (by decide)

/-- C1 counterexample: a failed query is not observably equivalent to never
having succeeded.  Starting from an entity whose previous query decoded the
server name `[88]`, a reply with a mismatched correlation key makes the
query fail, yet the name accessor still returns `[88]` — not the cleared
value a freshly constructed entity reports — because the pre-query reset
clears only the counts and lists, never the string fields. -/
theorem failedQuery_stale_counterexample :
    (GameServer.Query { NewGameServer with name := [88] } 5
        (0x63 :: 0 :: 0 :: List.replicate 17 0)).2 ≠ none ∧
    (GameServer.Query { NewGameServer with name := [88] } 5
        (0x63 :: 0 :: 0 :: List.replicate 17 0)).1.name = [88] ∧
    NewGameServer.name = [] := by
  refine ⟨?_, by decide, by decide⟩
  decide

/-- C1 amended: the pre-query reset clears only the counts and the lists
(`numTeams`, `numPlayers`, `maxPlayers`, `teams`, `players` for the game
server; `serverCount`, `servers`, and the loop bound for the master
server); a query failing before the first decoded-field assignment — a
short reply or a correlation-key mismatch — leaves the entity at exactly
that reset of its prior state, with all other decoded fields keeping their
previous values. -/
theorem failedQuery_reset_amended (g0 : GameServer) (key k0 k1 : Nat) (d rest : List Nat)
    (m0 : MasterServer) (pn pt k0' k1' : Nat) (rest' : List Nat) (ds : List (List Nat)) :
    ((d.take 2048).length < 20 →
      GameServer.Query g0 key d = (queryReset g0, some QError.replyTooShort)) ∧
    (key ≠ k0 * 256 + k1 → (0x63 :: k0 :: k1 :: rest).length ≤ 2048 →
      20 ≤ (0x63 :: k0 :: k1 :: rest).length →
      GameServer.Query g0 key (0x63 :: k0 :: k1 :: rest) =
        (queryReset g0, some QError.keyMismatch)) ∧
    (1 ≤ pn → pn ≤ 5 → 1 ≤ pt → pt ≤ 5 → pn ≤ pt → key ≠ k0' * 256 + k1' →
      (0x10 :: 0x06 :: pn :: pt :: k0' :: k1' :: rest').length ≤ 1024 →
      MasterServer.Query m0 key ((0x10 :: 0x06 :: pn :: pt :: k0' :: k1' :: rest') :: ds) =
        (masterReset m0, ds, some QError.keyMismatch)) := by
  refine ⟨?_, ?_, ?_⟩
  · intro hshort
    simp only [GameServer.Query]
    rw [if_pos hshort]
  · intro hkey hlen h20
    simp only [GameServer.Query]
    rw [List.take_of_length_le hlen]
    rw [if_neg (by omega : ¬((0x63 :: k0 :: k1 :: rest).length < 20))]
    simp only [GameServer.decodeFields, readByte, readU16BE]
    rw [if_neg (by omega : ¬((0x63 : Nat) ≠ 0x63)), if_pos hkey]
  · intro hpn1 hpn5 hpt1 hpt5 hord hkey hlen
    simp only [MasterServer.Query, MasterServer.queryLoop]
    rw [if_pos (by simp [masterReset] : (0 : Nat) < (masterReset m0).totalPackets)]
    rw [List.take_of_length_le hlen]
    simp only [MasterServer.processPacket, MasterServer.packetFields, readByte, readU16BE]
    rw [if_neg (by omega : ¬((0x10 : Nat) ≠ 0x10)), if_neg (by omega : ¬((0x06 : Nat) ≠ 0x06)),
      if_neg (by omega : ¬(pn < 1 ∨ pn > 5)), if_neg (by omega : ¬(pt < 1 ∨ pt > 5)),
      if_neg (by omega : ¬(pn > pt)), if_pos hkey]

theorem failedQuery_reset_amended_witness :
    ((([0] : List Nat).take 2048).length < 20 ∧
      GameServer.Query NewGameServer 5 [0] = (queryReset NewGameServer, some QError.replyTooShort)) ∧
    ((5 : Nat) ≠ 0 * 256 + 0 ∧
      GameServer.Query NewGameServer 5 (0x63 :: 0 :: 0 :: List.replicate 17 0) =
        (queryReset NewGameServer, some QError.keyMismatch)) ∧
    MasterServer.Query NewMasterServer 5 [[0x10, 0x06, 1, 1, 0, 7]] =
      (masterReset NewMasterServer, [], some QError.keyMismatch) :=
  ⟨⟨by decide,
      (failedQuery_reset_amended NewGameServer 5 0 0 [0] (List.replicate 17 0)
        NewMasterServer 1 1 0 7 [] []).1 (by decide)⟩,
    ⟨by decide,
      (failedQuery_reset_amended NewGameServer 5 0 0 [0] (List.replicate 17 0)
        NewMasterServer 1 1 0 7 [] []).2.1 (by decide) (by simp) (by simp)⟩,
    (failedQuery_reset_amended NewGameServer 5 0 0 [0] (List.replicate 17 0)
        NewMasterServer 1 1 0 7 [] []).2.2 (by decide) (by decide) (by decide) (by decide)
      (by decide) (by decide) (by simp)⟩

end T1Net
